import Mathlib

/-!
Verification development for the eth-tx-lifecycle backend (Go).

Shallow embedding of the core domain logic:
  * config helpers (`EnvOr`, `ParseHexUint64`, `ParseHexBigInt`, `Atoi`)
  * mempool poller (`Start` disabled branch, `mempoolPoll` tick, `calculateMempoolMetrics`)
  * health accounting (`BaseDataSource`, mempool `CheckHealth`)
  * MEV detectors (`DetectSandwiches`)
  * relay client (`Get` with negative cache)
  * snapshot merge-dedupe (`mergeReceivedBlocks`, `mergeDeliveredPayloads`)
  * tx-input decoder (action type classification, `extractTransferEvents`,
    `calculateSwapPrice`) and the `TrackTx` "latest" selection loop.

Machine integers are modelled as `Nat`/`Int` with explicit `% 2^64` where the Go
code uses `uint64` arithmetic that can wrap.  `float64` values that the claims
touch (`avgGasPrice`, swap amounts) are modelled as exact rationals; on every
input appearing in a claim the real `float64` computation is exact, so the
rational model agrees with the code there.  Wall-clock time is threaded as an
explicit parameter.
-/

namespace EthTxLifecycle

/-! ### String primitives

List-based models of the Go string operations used by the embedded code
(`strings.HasPrefix`, slicing, `strings.Contains`, `strings.ToLower`,
`strings.TrimSpace`).  They operate on the character list of a `String` so
that proofs can evaluate them by kernel reduction. -/

/-- Go `strings.HasPrefix s pre`. -/
def strStartsWith (s pre : String) : Bool := List.isPrefixOf pre.data s.data

/-- Go slicing `s[:n]` (the embedded inputs are ASCII, so byte and character
positions coincide). -/
def strTake (s : String) (n : Nat) : String := String.mk (s.data.take n)

/-- Go slicing `s[n:]` (ASCII inputs). -/
def strDrop (s : String) (n : Nat) : String := String.mk (s.data.drop n)

/-- Whether `needle` occurs in the haystack, on character lists. -/
def containsSub (needle : List Char) : List Char → Bool
  | [] => List.isPrefixOf needle []
  | c :: rest => List.isPrefixOf needle (c :: rest) || containsSub needle rest

/-- Go `strings.Contains`. -/
def containsStr (s pat : String) : Bool := containsSub pat.data s.data

/-- ASCII lowering of one character (the embedded inputs are ASCII, where Go
`strings.ToLower` agrees). -/
def charLower (c : Char) : Char :=
  if 'A' ≤ c ∧ c ≤ 'Z' then Char.ofNat (c.toNat + 32) else c

/-- Go `strings.ToLower` on ASCII input. -/
def strToLower (s : String) : String := String.mk (s.data.map charLower)

/-- Whether a character is whitespace for `strings.TrimSpace` (ASCII cases). -/
def isSpaceChar (c : Char) : Bool :=
  c = ' ' ∨ c = '\t' ∨ c = '\n' ∨ c = '\r' ∨ c = '\x0b' ∨ c = '\x0c'

/-- Go `strings.TrimSpace` on ASCII input. -/
def trimSpaceStr (s : String) : String :=
  String.mk (((s.data.dropWhile isSpaceChar).reverse.dropWhile isSpaceChar).reverse)

/-! ### Hex / integer parsing helpers (Go package config) -/

/-- Value of one hex digit, `none` for a non-hex character.  Mirrors the
character classes accepted by Go `strconv.ParseUint(_, 16, _)` and
`big.Int.SetString(_, 16)`. -/
def hexDigitVal (c : Char) : Option Nat :=
  if '0' ≤ c ∧ c ≤ '9' then some (c.toNat - '0'.toNat)
  else if 'a' ≤ c ∧ c ≤ 'f' then some (c.toNat - 'a'.toNat + 10)
  else if 'A' ≤ c ∧ c ≤ 'F' then some (c.toNat - 'A'.toNat + 10)
  else none

/-- Parse a string of hex digits (no sign, no prefix); `none` when empty or when
any character is not a hex digit. -/
def hexToNat (s : String) : Option Nat :=
  if s.data.isEmpty then none
  else s.data.foldl
    (fun acc c => match acc, hexDigitVal c with
      | some n, some d => some (n * 16 + d)
      | _, _ => none)
    (some 0)

/-- Strip a leading `0x`, mirroring Go `strings.TrimPrefix(s, "0x")`. -/
def trim0x (s : String) : String :=
  if strStartsWith s "0x" then strDrop s 2 else s

/-- Embeds `config.ParseHexUint64`: `strconv.ParseUint(strings.TrimPrefix(h,"0x"), 16, 64)`.
Fails on empty input, non-hex characters, and values that do not fit `uint64`. -/
def ParseHexUint64 (h : String) : Option Nat :=
  match hexToNat (trim0x h) with
  | some n => if n < 2 ^ 64 then some n else none
  | none => none

/-- Embeds `config.ParseHexBigInt`: `big.Int.SetString` with base 16 after
stripping `0x`; an optional sign is accepted, there is no size limit. -/
def ParseHexBigInt (h : String) : Option Int :=
  let s := trim0x h
  if strStartsWith s "-" then (hexToNat (strDrop s 1)).map (fun n => -(n : Int))
  else if strStartsWith s "+" then (hexToNat (strDrop s 1)).map (fun n => (n : Int))
  else (hexToNat s).map (fun n => (n : Int))

/-- Embeds Go `strconv.Atoi`: optional sign, decimal digits, error on empty,
on stray characters, and on values outside the `int64` range. -/
def Atoi (s : String) : Option Int :=
  let core (t : String) (sign : Int) : Option Int :=
    if t.data.isEmpty then none
    else
      (t.data.foldl
        (fun acc c =>
          match acc with
          | some n => if '0' ≤ c ∧ c ≤ '9' then some (n * 10 + (c.toNat - '0'.toNat)) else none
          | none => none)
        (some 0)).bind
        (fun n => if sign * (n : Int) < 2 ^ 63 ∧ -(2 ^ 63 : Int) ≤ sign * (n : Int)
                  then some (sign * (n : Int)) else none)
  if strStartsWith s "-" then core (strDrop s 1) (-1)
  else if strStartsWith s "+" then core (strDrop s 1) 1
  else core s 1

/-- Lowercase hex rendering of a natural number, as produced by Go
`fmt.Sprintf("%x", n)` and `big.Int.Text(16)` for non-negative values. -/
def natToHex (n : Nat) : String := String.mk (Nat.toDigits 16 n)

/-- Hex rendering of an integer as by `big.Int.Text(16)`: a `-` sign precedes
the digits of the absolute value. -/
def intToHex (z : Int) : String :=
  if z < 0 then "-" ++ natToHex z.natAbs else natToHex z.natAbs

/-- Left-pad with `'0'` up to width `w`, as in Go `fmt.Sprintf("%0*x", w, _)`. -/
def padZeros (w : Nat) (s : String) : String :=
  if s.length < w then String.mk (List.replicate (w - s.length) '0') ++ s else s

/-- Embeds `config.EnvOr`: the environment value when set and non-empty,
otherwise the fallback.  The process environment is passed explicitly as the
optional value of the variable in question. -/
def EnvOr (v : Option String) (fallback : String) : String :=
  match v with
  | some s => if s = "" then fallback else s
  | none => fallback

/-! ### Health accounting (Go package pkg, `BaseDataSource`) -/

/-- Embeds `pkg.BaseDataSource`.  `lastSuccess = none` models the zero
`time.Time`; `lastError = none` models a `nil` error. -/
structure BaseDataSource where
  name : String
  lastError : Option String
  lastSuccess : Option Nat
  cacheKey : String
  ttl : Nat
deriving Repr, DecidableEq

/-- Embeds `pkg.NewBaseDataSource`: zero success time, nil error. -/
def NewBaseDataSource (name cacheKey : String) (ttl : Nat) : BaseDataSource :=
  { name := name, lastError := none, lastSuccess := none, cacheKey := cacheKey, ttl := ttl }

/-- Embeds `(*BaseDataSource).SetError`: record the (possibly nil) error and
clear the success timestamp. -/
def SetError (b : BaseDataSource) (err : Option String) : BaseDataSource :=
  { b with lastError := err, lastSuccess := none }

/-- Embeds `(*BaseDataSource).SetSuccess`: record `now` and clear the error. -/
def SetSuccess (b : BaseDataSource) (now : Nat) : BaseDataSource :=
  { b with lastSuccess := some now, lastError := none }

/-- Embeds `(*BaseDataSource).IsHealthy`: healthy when never attempted
(zero success, nil error) or when the last success is within 5 minutes.
`time.Since` of the zero time exceeds 5 minutes, which `lastSuccess = none`
with a recorded error models as `false`. -/
def IsHealthy (b : BaseDataSource) (now : Nat) : Bool :=
  if b.lastSuccess = none ∧ b.lastError = none then true
  else match b.lastSuccess with
    | some t => now - t < 300
    | none => false

/-- Embeds `pkg.HealthStatus`. -/
structure HealthStatus where
  name : String
  healthy : Bool
  lastSuccess : Option Nat
  lastError : String
deriving Repr, DecidableEq

/-- Embeds `pkg.StatusFromSource`. -/
def StatusFromSource (ds : BaseDataSource) (now : Nat) : HealthStatus :=
  { name := ds.name
    healthy := IsHealthy ds now
    lastSuccess := ds.lastSuccess
    lastError := match ds.lastError with | some e => e | none => "" }

/-! ### Mempool (Go package domain, mempool.go) -/

/-- Embeds `domain.PendingTx`. -/
structure PendingTx where
  hash : String
  txfrom : String
  toAddr : Option String
  value : String
  gasPrice : Option String
  gas : Option String
  nonce : String
  input : String
  timestamp : Int
deriving Repr, DecidableEq

/-- Embeds `domain.MempoolMetrics`.  `avgGasPrice` is the `float64` field,
modelled as an exact rational (see the file header). -/
structure MempoolMetrics where
  totalGasRequested : Nat
  totalValueWei : String
  avgGasPrice : ℚ
  highPriorityCount : Nat
deriving Repr, DecidableEq

/-- Embeds `domain.MempoolData`. -/
structure MempoolData where
  pendingTxs : List PendingTx
  count : Nat
  lastUpdate : Int
  source : String
  metrics : Option MempoolMetrics
deriving Repr, DecidableEq

/-- The package-level initial value of `mempoolData`. -/
def mempoolInitialData : MempoolData :=
  { pendingTxs := [], count := 0, lastUpdate := 0, source := "ws", metrics := none }

/-- Two's-complement wrap-around of a signed 64-bit value, as performed by Go
`int` (int64) arithmetic on overflow. -/
def wrapInt64 (z : Int) : Int :=
  let m := z % 2 ^ 64
  if m < 2 ^ 63 then m else m - 2 ^ 64

/-- One synthetic entry of the disabled-mode mock snapshot, from the
`MEMPOOL_DISABLE` branch of `domain.Start` (index `i` of 0..9).  The value
`(i+1)*1e18` is computed in Go `int` (int64) arithmetic, which overflows at
`i = 9` and wraps to a negative number, which `fmt "0x%x"` renders with the
minus sign after the `0x` prefix: `"0x-7538dcfb76180000"`. -/
def mockTx (now : Int) (i : Nat) : PendingTx :=
  { hash := "0x" ++ padZeros 64 (natToHex (i + 1))
    txfrom := "0x" ++ padZeros 40 (natToHex (i * 1000))
    toAddr := some ("0x" ++ padZeros 40 (natToHex (i * 2000)))
    value := "0x" ++ intToHex (wrapInt64 (((i : Int) + 1) * 10 ^ 18))
    gasPrice := none
    gas := none
    nonce := ""
    input := ""
    timestamp := now - 10 * (i : Int) }

/-- The fixed mock snapshot installed by `domain.Start` when `MEMPOOL_DISABLE`
is set: 10 synthetic entries, `source = "ws-disabled"` and `count = 10`. -/
def mockSnapshot (now : Int) : MempoolData :=
  { mempoolInitialData with
      source := "ws-disabled"
      count := 10
      lastUpdate := now
      pendingTxs := (List.range 10).map (mockTx now) }

/-- Result of `domain.Start`: either the disabled branch installs the mock
snapshot and returns, or the background polling goroutine is started. -/
inductive StartResult where
  | installMock (d : MempoolData)
  | startPolling
deriving Repr, DecidableEq

/-- Embeds `domain.Start`: lowercase the `MEMPOOL_DISABLE` value; on
`1`/`true`/`yes`/`on` install the mock snapshot and do not start polling. -/
def mempoolStart (envDisable : Option String) (now : Int) : StartResult :=
  let d := strToLower (EnvOr envDisable "")
  if d = "1" ∨ d = "true" ∨ d = "yes" ∨ d = "on" then .installMock (mockSnapshot now)
  else .startPolling

/-- Intermediate accumulator of `calculateMempoolMetrics`. -/
structure MetricsAcc where
  totalGas : Nat
  totalGasPrice : Nat
  gasPriceCount : Nat
  totalValue : Int
  highPriority : Nat
deriving Repr, DecidableEq

/-- One loop iteration of `domain.calculateMempoolMetrics`.  The `uint64`
accumulators wrap modulo `2^64`. -/
def metricsStep (acc : MetricsAcc) (tx : PendingTx) : MetricsAcc :=
  let acc :=
    match tx.gas with
    | some g =>
        match ParseHexUint64 g with
        | some v => { acc with totalGas := (acc.totalGas + v) % 2 ^ 64 }
        | none => acc
    | none => acc
  let acc :=
    if tx.value ≠ "" ∧ tx.value ≠ "0x" ∧ tx.value ≠ "0x0" then
      match ParseHexBigInt tx.value with
      | some v => { acc with totalValue := acc.totalValue + v }
      | none => acc
    else acc
  let gasPrice : Nat :=
    match tx.gasPrice with
    | some s => if s ≠ "" then (ParseHexUint64 s).getD 0 else 0
    | none => 0
  if gasPrice > 0 then
    { acc with
        totalGasPrice := (acc.totalGasPrice + gasPrice) % 2 ^ 64
        gasPriceCount := acc.gasPriceCount + 1
        highPriority := acc.highPriority + (if gasPrice > 50000000000 then 1 else 0) }
  else acc

/-- Embeds `domain.calculateMempoolMetrics`: `nil` for an empty list, otherwise
a single left-to-right scan.  The average gas price divides the wrapped sum by
the count (integer division, as in the Go expression
`float64(totalGasPrice/uint64(gasPriceCount)) / 1e9`). -/
def calculateMempoolMetrics (txs : List PendingTx) : Option MempoolMetrics :=
  if txs = [] then none
  else
    let st := txs.foldl metricsStep ⟨0, 0, 0, 0, 0⟩
    some
      { totalGasRequested := st.totalGas
        totalValueWei := "0x" ++ intToHex st.totalValue
        avgGasPrice :=
          if st.gasPriceCount > 0 then ((st.totalGasPrice / st.gasPriceCount : Nat) : ℚ) / 10 ^ 9
          else 0
        highPriorityCount := st.highPriority }

/-- The raw transaction shape unmarshalled from the pending block in
`domain.mempoolPoll`. -/
structure RawPendingTx where
  hash : String
  txfrom : String
  toAddr : Option String
  value : String
  gasPrice : Option String
  gas : Option String
  nonce : String
  input : String
deriving Repr, DecidableEq

/-- The projection of one raw pending transaction performed by
`domain.mempoolPoll`, stamping `observedAt = now`. -/
def projectPending (now : Int) (tx : RawPendingTx) : PendingTx :=
  { hash := tx.hash, txfrom := tx.txfrom, toAddr := tx.toAddr, value := tx.value
    gasPrice := tx.gasPrice, gas := tx.gas, nonce := tx.nonce, input := tx.input
    timestamp := now }

/-- One successful tick of `domain.mempoolPoll`: with zero transactions the
snapshot is left untouched (`none`); otherwise all fields are replaced
atomically. -/
def mempoolPollStep (txs : List RawPendingTx) (now : Int) : Option MempoolData :=
  if txs = [] then none
  else
    let pendingTxs := txs.map (projectPending now)
    some
      { pendingTxs := pendingTxs
        count := pendingTxs.length
        lastUpdate := now
        source := "http-polling"
        metrics := calculateMempoolMetrics pendingTxs }

/-- Embeds `domain.CheckHealth` (mempool): the snapshot is considered healthy
when it has entries or comes from the disabled branch; the health source is
updated and projected. -/
def mempoolCheckHealth (d : MempoolData) (h : BaseDataSource) (now : Nat) :
    HealthStatus × BaseDataSource :=
  let healthy := d.count > 0 ∨ d.source = "ws-disabled"
  let h' := if healthy then SetSuccess h now else SetError h none
  (StatusFromSource h' now, h')

/-! ### MEV analyzer init (Go package domain, mev.go `init`) -/

/-- Embeds the `SANDWICH_MAX_TX` part of the `mev.go` `init`: start from 400,
parse the env value (fallback `"400"`), clamp the parsed value to `[10,1000]`;
an unparseable value leaves the default. -/
def mevMaxTxOf (env : Option String) : Int :=
  let s := EnvOr env "400"
  if s ≠ "" then
    match Atoi s with
    | some n => if n < 10 then 10 else if n > 1000 then 1000 else n
    | none => 400
  else 400

/-- Embeds the `SANDWICH_WORKERS` part of the `mev.go` `init`: start from 10,
parse the env value (fallback `"10"`); only a parsed value with `n ≥ 1` is
accepted (capped at 50), anything else leaves the default 10. -/
def mevWorkersOf (env : Option String) : Int :=
  let s := EnvOr env "10"
  if s ≠ "" then
    match Atoi s with
    | some n => if n ≥ 1 then (if n > 50 then 50 else n) else 10
    | none => 10
  else 10

/-! ### Sandwich detector (Go package domain, mev.go) -/

/-- Embeds `domain.SwapEvent`. -/
structure SwapEvent where
  txHash : String
  txFrom : String
  pool : String
  txIndex : Nat
  logIndex : Nat
deriving Repr, DecidableEq

/-- Embeds `domain.Sandwich`. -/
structure Sandwich where
  pool : String
  attacker : String
  victim : String
  preTx : String
  victimTx : String
  postTx : String
  block : String
deriving Repr, DecidableEq

/-- Group swaps by pool, preserving per-pool order; pools are listed in order of
first occurrence (the Go map iteration order across pools is unspecified; the
claims under verification involve a single pool, where this choice is
irrelevant). -/
def groupByPool (swaps : List SwapEvent) : List (String × List SwapEvent) :=
  swaps.foldl
    (fun acc s =>
      if acc.any (fun p => p.1 = s.pool) then
        acc.map (fun p => if p.1 = s.pool then (p.1, p.2 ++ [s]) else p)
      else acc ++ [(s.pool, [s])])
    []

/-- The inner scan of `domain.DetectSandwiches` over one pool's ordered swap
subsequence.  The Go loop advances `i` by 1 when the window does not match and
by 3 when it does (`i += 2` in the body plus the loop increment), which this
structural recursion mirrors: on a match the three matched events are consumed,
otherwise only the head is. -/
def scanPoolSwaps (pool : String) (blockNum : String) : List SwapEvent → List Sandwich
  | pre :: victim :: post :: rest =>
    if pre.pool ≠ victim.pool ∨ victim.pool ≠ post.pool then
      scanPoolSwaps pool blockNum (victim :: post :: rest)
    else if pre.txFrom = "" ∨ post.txFrom = "" ∨ victim.txFrom = "" then
      scanPoolSwaps pool blockNum (victim :: post :: rest)
    else if pre.txFrom = post.txFrom ∧ pre.txFrom ≠ victim.txFrom then
      { pool := pool, attacker := pre.txFrom, victim := victim.txFrom,
        preTx := pre.txHash, victimTx := victim.txHash, postTx := post.txHash,
        block := blockNum } :: scanPoolSwaps pool blockNum rest
    else
      scanPoolSwaps pool blockNum (victim :: post :: rest)
  | _ => []

/-- Embeds `domain.DetectSandwiches` (mev.go): group swaps by pool, then scan
each pool's ordered subsequence for non-overlapping `A _ A` searcher triples. -/
def DetectSandwiches (swaps : List SwapEvent) (blockNum : String) : List Sandwich :=
  (groupByPool swaps).flatMap (fun p => scanPoolSwaps p.1 blockNum p.2)

/-! ### TTL cache (Go package pkg, `Cache`) -/

/-- Embeds `pkg.Cache`: entries keyed by string with absolute expiry times. -/
structure Cache (V : Type) where
  entries : List (String × V × Nat)
  okTTL : Nat
  errTTL : Nat
deriving Repr, DecidableEq

/-- Embeds `pkg.NewCache`: an error TTL of 0 defaults to the ok TTL. -/
def cacheNew (V : Type) (okTTL errTTL : Nat) : Cache V :=
  { entries := [], okTTL := okTTL, errTTL := if errTTL = 0 then okTTL else errTTL }

/-- Lookup of the raw entry for a key. -/
def cacheFind {V : Type} (c : Cache V) (key : String) : Option (V × Nat) :=
  (c.entries.find? (fun e => e.1 = key)).map (fun e => e.2)

/-- Embeds `(*Cache).Get`: a hit iff present and unexpired; an expired entry is
removed eagerly and reported as a miss. -/
def cacheGet {V : Type} (c : Cache V) (key : String) (now : Nat) : Option V × Cache V :=
  match cacheFind c key with
  | some (v, exp) =>
    if now < exp then (some v, c)
    else (none, { c with entries := c.entries.filter (fun e => e.1 ≠ key) })
  | none => (none, c)

/-- Embeds `(*Cache).Set`: unconditional overwrite with expiry
`now + (isError ? errTTL : okTTL)`. -/
def cacheSet {V : Type} (c : Cache V) (key : String) (v : V) (isError : Bool) (now : Nat) :
    Cache V :=
  { c with entries :=
      (key, v, now + (if isError then c.errTTL else c.okTTL)) ::
        c.entries.filter (fun e => e.1 ≠ key) }

/-! ### Relay client (Go package relay, `Get`) -/

/-- The relay client's mutable state: ok-cache of response bodies, negative
cache keyed by path, and the health source. -/
structure RelayState where
  okCache : Cache String
  failCache : Cache Unit
  health : BaseDataSource
deriving Repr, DecidableEq

/-- One relay attempt as seen by the `Get` loop: the base URL, the wall-clock
time elapsed since the call started when this iteration begins (for the budget
check), and the response — `none` for a transport error, otherwise the HTTP
status and raw body. -/
structure RelayAttempt where
  base : String
  elapsed : Nat
  resp : Option (Nat × String)
deriving Repr, DecidableEq

/-- Outcome of a relay `Get` call: the result, the updated client state, and
the list of relay bases actually contacted over the network. -/
structure RelayOutcome where
  result : Except String String
  state : RelayState
  contacted : List String
deriving Repr

/-- The code after the relay loop in `relay.Get`: insert the path into the
negative cache; when a per-relay error was recorded, wrap it and record it on
the health source (with no recorded error the health source is left as is). -/
def relayExhausted (path : String) (relayCount : Nat) (now : Nat) (st : RelayState)
    (lastErr : Option String) (contacted : List String) : RelayOutcome :=
  let st := { st with failCache := cacheSet st.failCache path () false now }
  match lastErr with
  | some e =>
    let msg := "all " ++ toString relayCount ++ " relays failed, last error: " ++ e
    { result := .error msg, state := { st with health := SetError st.health (some msg) },
      contacted := contacted }
  | none =>
    { result := .error ("all " ++ toString relayCount ++ " relays failed or timed out"),
      state := st, contacted := contacted }

/-- The relay iteration loop of `relay.Get`: per relay, check the budget, issue
the GET, on a 2xx non-empty body store it in the ok-cache, then re-read the
ok-cache and return on a hit; otherwise record the error and continue. -/
def relayGetLoop (path : String) (budget : Nat) (relayCount : Nat) (now : Nat) :
    List RelayAttempt → RelayState → Option String → List String → RelayOutcome
  | [], st, lastErr, contacted => relayExhausted path relayCount now st lastErr contacted
  | a :: rest, st, lastErr, contacted =>
    if a.elapsed > budget then relayExhausted path relayCount now st lastErr contacted
    else
      let contacted := contacted ++ [a.base]
      let (st, lastErr) :=
        match a.resp with
        | none => (st, some ("request failed for " ++ a.base))
        | some (status, body) =>
          if status / 100 ≠ 2 then
            (st, some ("non-2xx status " ++ toString status ++ " from " ++ a.base))
          else if trimSpaceStr body = "" then
            (st, some ("empty response from " ++ a.base))
          else
            ({ st with okCache := cacheSet st.okCache path body false now }, lastErr)
      match cacheGet st.okCache path now with
      | (some body, okc) =>
        { result := .ok body,
          state := { st with okCache := okc, health := SetSuccess st.health now },
          contacted := contacted }
      | (none, okc) =>
        relayGetLoop path budget relayCount now rest { st with okCache := okc } lastErr contacted

/-- Embeds `relay.Get`: fail fast on a negative-cache hit, answer from the
ok-cache when possible, otherwise iterate the configured relays under the
budget. -/
def relayGet (path : String) (budget : Nat) (now : Nat) (attempts : List RelayAttempt)
    (st : RelayState) : RelayOutcome :=
  match cacheGet st.failCache path now with
  | (some _, fc) =>
    let msg := "relay recently failed; backing off"
    let st := { st with failCache := fc, health := SetError st.health (some msg) }
    { result := .error msg, state := st, contacted := [] }
  | (none, fc) =>
    let st := { st with failCache := fc }
    match cacheGet st.okCache path now with
    | (some body, okc) =>
      { result := .ok body, state := { st with okCache := okc }, contacted := [] }
    | (none, okc) =>
      relayGetLoop path budget attempts.length now attempts { st with okCache := okc } none []

/-! ### Snapshot merge-dedupe (Go package domain, snapshot.go) -/

/-- One bidtrace entry as unmarshalled into `map[string]any`.  Only the fields
read by the key computation are distinguished; `blockHash = some h` means the
`block_hash` field is present with string value `h` (a present non-string value
behaves like an absent one for the key and is collapsed to `none`); `slot`,
`builderPubkey` and `blockNumber` carry the `fmt "%v"` rendering of the field
when present.  `tag` stands for all remaining fields of the map, which pass
through the merge verbatim. -/
structure BidEntry where
  blockHash : Option String
  slot : Option String
  builderPubkey : Option String
  blockNumber : Option String
  tag : Nat
deriving Repr, DecidableEq

/-- Go `fmt.Sprintf("%v", x)` of an `any` that is `nil` or the stored
rendering. -/
def renderAny (v : Option String) : String :=
  match v with
  | some s => s
  | none => "<nil>"

/-- Dedupe key of `mergeReceivedBlocks`: `block_hash` when a non-empty string,
else `"slot-builder_pubkey"` when either field is present, else empty. -/
def receivedKey (b : BidEntry) : String :=
  match b.blockHash with
  | some h =>
    if h ≠ "" then h
    else if b.slot.isSome ∨ b.builderPubkey.isSome then
      renderAny b.slot ++ "-" ++ renderAny b.builderPubkey
    else ""
  | none =>
    if b.slot.isSome ∨ b.builderPubkey.isSome then
      renderAny b.slot ++ "-" ++ renderAny b.builderPubkey
    else ""

/-- Dedupe key of `mergeDeliveredPayloads`: `block_hash` when a non-empty
string, else `"slot-block_number"` when either field is present, else empty. -/
def deliveredKey (b : BidEntry) : String :=
  match b.blockHash with
  | some h =>
    if h ≠ "" then h
    else if b.slot.isSome ∨ b.blockNumber.isSome then
      renderAny b.slot ++ "-" ++ renderAny b.blockNumber
    else ""
  | none =>
    if b.slot.isSome ∨ b.blockNumber.isSome then
      renderAny b.slot ++ "-" ++ renderAny b.blockNumber
    else ""

/-- One entry of the inner merge loop: a non-empty unseen key marks the key as
seen and appends the entry; an empty key appends the entry verbatim; a seen key
drops the entry. -/
def dedupeStep (key : BidEntry → String) (acc : List String × List BidEntry)
    (b : BidEntry) : List String × List BidEntry :=
  let k := key b
  if k ≠ "" ∧ k ∉ acc.1 then (k :: acc.1, acc.2 ++ [b])
  else if k = "" then (acc.1, acc.2 ++ [b])
  else acc

/-- The shared shape of `mergeReceivedBlocks` and `mergeDeliveredPayloads`:
iterate the response bodies (a body failing `json.Unmarshal` is `none` and
skipped) and dedupe entries by `key` with a shared seen-set. -/
def mergeWithKey (key : BidEntry → String) (bodies : List (Option (List BidEntry))) :
    List BidEntry :=
  (bodies.foldl
    (fun acc body =>
      match body with
      | none => acc
      | some list => list.foldl (dedupeStep key) acc)
    ([], [])).2

/-- Embeds `domain.mergeReceivedBlocks`. -/
def mergeReceivedBlocks (bodies : List (Option (List BidEntry))) : List BidEntry :=
  mergeWithKey receivedKey bodies

/-- Embeds `domain.mergeDeliveredPayloads`. -/
def mergeDeliveredPayloads (bodies : List (Option (List BidEntry))) : List BidEntry :=
  mergeWithKey deliveredKey bodies

/-! ### Tx-input decoder (Go package domain, txdecode) -/

/-- The fixed method-selector table `methodSignatures`. -/
def methodSignatures : List (String × String) :=
  [ ("0xa9059cbb", "transfer(address,uint256)")
  , ("0x23b872dd", "transferFrom(address,address,uint256)")
  , ("0x095ea7b3", "approve(address,uint256)")
  , ("0x38ed1739", "swapExactTokensForTokens(uint256,uint256,address[],address,uint256)")
  , ("0x7ff36ab5", "swapExactETHForTokens(uint256,address[],address,uint256)")
  , ("0x18cbafe5", "swapExactTokensForETH(uint256,uint256,address[],address,uint256)")
  , ("0xfb3bdb41", "swapETHForExactTokens(uint256,address[],address,uint256)")
  , ("0x8803dbee", "swapTokensForExactTokens(uint256,uint256,address[],address,uint256)")
  , ("0x791ac947", "swapExactTokensForTokensSupportingFeeOnTransferTokens(uint256,uint256,address[],address,uint256)")
  , ("0xb6f9de95", "swapExactETHForTokensSupportingFeeOnTransferTokens(uint256,address[],address,uint256)")
  , ("0x5c11d795", "swapExactTokensForETHSupportingFeeOnTransferTokens(uint256,uint256,address[],address,uint256)")
  , ("0xd0e30db0", "deposit()")
  , ("0x2e1a7d4d", "withdraw(uint256)")
  , ("0xb6b55f25", "deposit(uint256)")
  , ("0x3ccfd60b", "withdraw()")
  , ("0x4e71d92d", "claim()")
  , ("0x379607f5", "claim(uint256)")
  , ("0x2e7ba6ef", "claimReward()")
  , ("0xe6f1daf2", "claimRewards()")
  , ("0x40c10f19", "mint(address,uint256)")
  , ("0xa0712d68", "mint(uint256)")
  , ("0x6a627842", "mint(address)")
  , ("0x94bf804d", "mintWithSignature((address,uint256,string,uint256,uint256,bytes32,bytes))")
  , ("0xb61d27f6", "execute(address,uint256,bytes)")
  , ("0x1cff79cd", "execute(address,bytes)")
  , ("0x1fad948c", "handleOps((address,uint256,bytes,bytes,uint256,uint256,uint256,uint256,uint256,bytes,bytes)[],address)")
  , ("0x590e1ae3", "refund()")
  , ("0xfa89401a", "refund(address)") ]

/-- The fixed known-contract address table `knownContracts`. -/
def knownContracts : List (String × String) :=
  [ ("0x7a250d5630b4cf539739df2c5dacb4c659f2488d", "Uniswap V2 Router")
  , ("0xe592427a0aece92de3edee1f18e0157c05861564", "Uniswap V3 Router")
  , ("0x68b3465833fb72a70ecdf485e0e4c7bd8665fc45", "Uniswap V3 Router 2")
  , ("0xef1c6e67703c7bd7107eed8303fbe6ec2554bf6b", "Uniswap Universal Router")
  , ("0xd9e1ce17f2641f24ae83637ab66a2cca9c378b9f", "SushiSwap Router")
  , ("0x1111111254eeb25477b68fb85ed929f73a960582", "1inch V5 Router")
  , ("0xa5e0829caced8ffdd4de3c43696c57f7d7a678ff", "QuickSwap Router")
  , ("0xdac17f958d2ee523a2206206994597c13d831ec7", "Tether USD (USDT)")
  , ("0xa0b86991c6218b36c1d19d4a2e9eb0ce3606eb48", "USD Coin (USDC)")
  , ("0x6b175474e89094c44da98b954eedeac495271d0f", "Dai Stablecoin (DAI)")
  , ("0xc02aaa39b223fe8d0a0e5c4f27ead9083c756cc2", "Wrapped Ether (WETH)")
  , ("0x2260fac5e5542a773aa44fbcfedf7c193bc2c599", "Wrapped BTC (WBTC)") ]

/-- Go map lookup returning the zero value `""` on a missing key. -/
def lookupOrEmpty (table : List (String × String)) (k : String) : String :=
  match table.find? (fun e => e.1 = k) with
  | some e => e.2
  | none => ""

/-- One receipt log entry as unmarshalled by `extractTransferEvents`. -/
structure LogEntry where
  address : String
  topics : List String
  data : String
deriving Repr, DecidableEq

/-- A receipt as seen by the decoder: its log list. -/
structure DecReceipt where
  logs : List LogEntry
deriving Repr, DecidableEq

/-- One extracted ERC-20 transfer, as built by `extractTransferEvents`. -/
structure TransferEv where
  token : String
  sender : String
  recipient : String
  amount : String
  tokenName : String
deriving Repr, DecidableEq

/-- The keccak topic of `Transfer(address,address,uint256)`, hard-coded in
`extractTransferEvents`. -/
def transferSig : String :=
  "0xddf252ad1be2c89b69c2b068fc378daa952ba7f163c4a11628f55a4df523b3ef"

/-- Embeds the transfer-extraction loop of `domain.extractTransferEvents`:
keep logs whose first topic is the ERC-20 Transfer signature and that carry at
least 3 topics; addresses are taken from the topic tails and lowercased, an
empty data field becomes amount `0x0`. -/
def extractTransfers (logs : List LogEntry) : List TransferEv :=
  logs.filterMap
    (fun lg =>
      if lg.topics.length ≥ 3 ∧ lg.topics.head? = some transferSig then
        let fromTopic := (lg.topics.drop 1).head?.getD ""
        let toTopic := (lg.topics.drop 2).head?.getD ""
        let valueHex := trim0x lg.data
        some
          { token := strToLower lg.address
            sender := strToLower ("0x" ++ strDrop fromTopic 26)
            recipient := strToLower ("0x" ++ strDrop toTopic 26)
            amount := "0x" ++ (if valueHex = "" then "0" else valueHex)
            tokenName := lookupOrEmpty knownContracts (strToLower lg.address) }
      else none)

/-- The action-type classification chain of `domain.DecodeTransactionInput` for
a known method name. -/
def actionTypeOfMethod (methodName : String) : String :=
  if strStartsWith methodName "transfer(" then "transfer"
  else if strStartsWith methodName "transferFrom(" then "transferFrom"
  else if containsStr methodName "swap" ∨ containsStr methodName "Swap" then "swap"
  else if strStartsWith methodName "approve(" then "approve"
  else if strStartsWith methodName "deposit(" then "deposit"
  else if strStartsWith methodName "withdraw(" then "withdraw"
  else if strStartsWith methodName "mint(" ∨ containsStr methodName "mint" then "mint"
  else if strStartsWith methodName "claim(" ∨ containsStr methodName "claim"
          ∨ containsStr methodName "Claim" then "claim"
  else if strStartsWith methodName "execute(" then "execute"
  else if containsStr methodName "handleOps" then "handleOps"
  else if strStartsWith methodName "refund(" then "refund"
  else ""

/-- The `ActionType` field of `domain.DecodeTransactionInput`:
`none` models a `nil` decoded result (input shorter than a selector);
`some ""` is a decoded result whose `ActionType` was never assigned (the
native-transfer branch and unmatched known selectors).  For an unknown selector
the type is `contract_call`, upgraded by receipt context to `swap` (≥ 2
transfers) or `transfer` (exactly 1).  The `to` and `value` arguments of the Go
function only influence fields other than `ActionType` and are omitted here. -/
def decodeActionType (input : String) (receipt : Option DecReceipt) : Option String :=
  if input = "" ∨ input = "0x" then some ""
  else if input.length < 10 then none
  else
    let methodSig := strTake input 10
    match (methodSignatures.find? (fun e => e.1 = methodSig)).map (fun e => e.2) with
    | none =>
      match receipt with
      | some rc =>
        let transfers := extractTransfers rc.logs
        if transfers.length ≥ 2 then some "swap"
        else if transfers.length = 1 then some "transfer"
        else some "contract_call"
      | none => some "contract_call"
    | some methodName => some (actionTypeOfMethod methodName)

/-! ### Swap pricing (Go `calculateSwapPrice`) -/

/-- The swap pricing fields that `calculateSwapPrice` writes into
`decoded.Details`.  The divided amounts and the exchange rate are the
`big.Float` values, modelled as exact rationals; the 6-decimal text rendering
is a function of these values and is not modelled separately. -/
structure SwapPricing where
  fromToken : String
  fromTokenName : String
  fromAmount : String
  fromAmountDiv : ℚ
  toToken : String
  toTokenName : String
  toAmount : String
  toAmountDiv : ℚ
  rate : ℚ
deriving Repr, DecidableEq

/-- The per-transfer amount parse and division by `1e18` performed inside the
`calculateSwapPrice` loop. -/
def parseAmountDiv (t : TransferEv) : Option ℚ :=
  (ParseHexBigInt t.amount).map (fun z => (z : ℚ) / 10 ^ 18)

/-- The loop of `calculateSwapPrice` over indices `i ≥ 1`: each parseable
transfer overwrites `tokenOut`, so the final value is the last parseable
transfer of the tail. -/
def swapScanOut (rest : List TransferEv) : Option (TransferEv × ℚ) :=
  rest.foldl
    (fun acc t =>
      match parseAmountDiv t with
      | some q => some (t, q)
      | none => acc)
    none

/-- Embeds `domain.calculateSwapPrice` on the extracted transfer list: `none`
models an early return with no pricing fields written.  Index 0 supplies the
"in" side, every later parseable transfer overwrites the "out" side. -/
def calculateSwapPrice (transfers : List TransferEv) : Option SwapPricing :=
  if transfers.length < 2 then none
  else
    match transfers with
    | [] => none
    | t0 :: rest =>
      match parseAmountDiv t0, swapScanOut rest with
      | some qin, some (tout, qout) =>
        some
          { fromToken := t0.token, fromTokenName := t0.tokenName
            fromAmount := t0.amount, fromAmountDiv := qin
            toToken := tout.token, toTokenName := tout.tokenName
            toAmount := tout.amount, toAmountDiv := qout
            rate := qout / qin }
      | _, _ => none

/-! ### TrackTx "latest" selection (Go package domain, track) -/

/-- One transaction of the block fetched while resolving the `latest`
sentinel in `domain.TrackTx`. -/
structure BlkTx where
  hash : String
  toAddr : Option String
  value : String
  input : String
deriving Repr, DecidableEq

/-- Whether a decode result qualifies for selection: decoded non-nil with an
action type other than empty and `contract_call`. -/
def decodeQualifies (d : Option String) : Bool :=
  match d with
  | some a => a ≠ "" ∧ a ≠ "contract_call"
  | none => false

/-- The selection loop of `domain.TrackTx` for `latest`: for each transaction
in block order, first decode from input only; when that does not qualify,
immediately fetch this transaction's receipt (`receiptOf`, `none` modelling a
fetch error or `null` result) and decode with receipt context; the first
transaction qualifying either way is chosen.  Returns `""` when none
qualifies. -/
def selectLoop (receiptOf : String → Option DecReceipt) : List BlkTx → String
  | [] => ""
  | tx :: rest =>
    if decodeQualifies (decodeActionType tx.input none) then tx.hash
    else
      match receiptOf tx.hash with
      | some rc =>
        if decodeQualifies (decodeActionType tx.input (some rc)) then tx.hash
        else selectLoop receiptOf rest
      | none => selectLoop receiptOf rest

/-- The complete `latest` hash selection of `domain.TrackTx`: the loop result,
falling back to the first transaction of the block when the loop selects
nothing. -/
def selectLatestTxHash (txs : List BlkTx) (receiptOf : String → Option DecReceipt) : String :=
  let h := selectLoop receiptOf txs
  if h = "" then
    match txs with
    | [] => ""
    | t :: _ => t.hash
  else h

/-- Whether one transaction is selected by the per-transaction body of the
`latest` loop: it qualifies at input-only decode, or its receipt is available
and it qualifies with receipt context. -/
def qualifiesEither (receiptOf : String → Option DecReceipt) (tx : BlkTx) : Bool :=
  decodeQualifies (decodeActionType tx.input none) ||
    (match receiptOf tx.hash with
     | some rc => decodeQualifies (decodeActionType tx.input (some rc))
     | none => false)

/-! ### Concrete fixtures used by the claim theorems and witnesses -/

/-- The pending transaction of the clean-mempool scenario: 1 ETH value,
50 Gwei legacy gas price, 21000 gas. -/
def c5tx : RawPendingTx :=
  { hash := "0x1", txfrom := "0xa", toAddr := some "0xb", value := "0xde0b6b3a7640000"
    gasPrice := some "0xba43b7400", gas := some "0x5208", nonce := "0x1", input := "0x" }

/-- A raw pending transaction with no parseable economics (for the poll
invariant witness). -/
def c2raw : RawPendingTx :=
  { hash := "0x1", txfrom := "0xa", toAddr := none, value := "0x0"
    gasPrice := none, gas := none, nonce := "0x0", input := "0x" }

/-- A transaction whose selector is unknown, so that input-only decoding yields
`contract_call`. -/
def c6tx1 : BlkTx := { hash := "0xt1", toAddr := none, value := "0x0", input := "0xdeadbeef" }

/-- A plain ERC-20 `transfer` transaction, qualifying at input-only decode. -/
def c6tx2 : BlkTx := { hash := "0xt2", toAddr := none, value := "0x0", input := "0xa9059cbb" }

/-- A receipt with two ERC-20 Transfer logs, upgrading an unknown selector to a
`swap` classification. -/
def c6receipt : DecReceipt :=
  { logs :=
      [ { address := "0xAA"
          topics :=
            [ transferSig
            , "0x0000000000000000000000001111111111111111111111111111111111111111"
            , "0x0000000000000000000000002222222222222222222222222222222222222222" ]
          data := "0xde0b6b3a7640000" }
      , { address := "0xBB"
          topics :=
            [ transferSig
            , "0x0000000000000000000000003333333333333333333333333333333333333333"
            , "0x0000000000000000000000004444444444444444444444444444444444444444" ]
          data := "0x1bc16d674ec80000" } ] }

/-- Receipt oracle: only `c6tx1` has a receipt. -/
def c6oracle : String → Option DecReceipt :=
  fun h => if h = "0xt1" then some c6receipt else none

/-- First transfer of the three-transfer swap receipt (amount 1·10¹⁸). -/
def c7t1 : TransferEv :=
  { token := "0x01", sender := "0xs1", recipient := "0xr1"
    amount := "0xde0b6b3a7640000", tokenName := "" }

/-- Second transfer of the three-transfer swap receipt (amount 2·10¹⁸). -/
def c7t2 : TransferEv :=
  { token := "0x02", sender := "0xs2", recipient := "0xr2"
    amount := "0x1bc16d674ec80000", tokenName := "" }

/-- Third transfer of the three-transfer swap receipt (amount 3·10¹⁸). -/
def c7t3 : TransferEv :=
  { token := "0x03", sender := "0xs3", recipient := "0xr3"
    amount := "0x29a2241af62c0000", tokenName := "" }

/-- A relay client state whose negative cache holds `"p"` until time 100. -/
def c8state : RelayState :=
  { okCache := { entries := [], okTTL := 20, errTTL := 20 }
    failCache := { entries := [("p", (), 100)], okTTL := 10, errTTL := 10 }
    health := NewBaseDataSource "relay" "relay_health" 30 }

/-- Merge invariant: any two entries of the output whose keys are non-empty
have distinct keys. -/
def goodKeys (key : BidEntry → String) (out : List BidEntry) : Prop :=
  List.Pairwise (fun a b => key a ≠ "" → key b ≠ "" → key a ≠ key b) out

/-- Merge invariant: every non-empty key of the output is recorded in the
seen-set. -/
def seenCovers (key : BidEntry → String) (seen : List String) (out : List BidEntry) : Prop :=
  ∀ b ∈ out, key b ≠ "" → key b ∈ seen

/-! ## Claim theorems -/

/-- C1: for a single pool whose ordered swap subsequence has searchers
`[A,B,A,B,A]` at positions 0..4, `DetectSandwiches` emits exactly one finding,
the one at positions (0,1,2) with attacker `A` and victim `B`; after the match
the scan advances by 3, so no second finding is emitted from positions 2..4. -/
theorem detectSandwiches_ababa_one_finding
    (A B P N t0 t1 t2 t3 t4 : String) (hA : A ≠ "") (hB : B ≠ "") (hAB : A ≠ B) :
    DetectSandwiches
      [ { txHash := t0, txFrom := A, pool := P, txIndex := 0, logIndex := 0 }
      , { txHash := t1, txFrom := B, pool := P, txIndex := 1, logIndex := 0 }
      , { txHash := t2, txFrom := A, pool := P, txIndex := 2, logIndex := 0 }
      , { txHash := t3, txFrom := B, pool := P, txIndex := 3, logIndex := 0 }
      , { txHash := t4, txFrom := A, pool := P, txIndex := 4, logIndex := 0 } ] N
    = [ { pool := P, attacker := A, victim := B
          preTx := t0, victimTx := t1, postTx := t2, block := N } ] := by
  simp [DetectSandwiches, groupByPool, scanPoolSwaps, hA, hB, hAB]

/-- Witness for C1 at concrete searchers, pool and hashes. -/
theorem detectSandwiches_ababa_one_finding_witness :
    DetectSandwiches
      [ { txHash := "0xh0", txFrom := "0xa", pool := "0xp", txIndex := 0, logIndex := 0 }
      , { txHash := "0xh1", txFrom := "0xb", pool := "0xp", txIndex := 1, logIndex := 0 }
      , { txHash := "0xh2", txFrom := "0xa", pool := "0xp", txIndex := 2, logIndex := 0 }
      , { txHash := "0xh3", txFrom := "0xb", pool := "0xp", txIndex := 3, logIndex := 0 }
      , { txHash := "0xh4", txFrom := "0xa", pool := "0xp", txIndex := 4, logIndex := 0 } ] "0x1"
    = [ { pool := "0xp", attacker := "0xa", victim := "0xb"
          preTx := "0xh0", victimTx := "0xh1", postTx := "0xh2", block := "0x1" } ] :=
  detectSandwiches_ababa_one_finding "0xa" "0xb" "0xp" "0x1" "0xh0" "0xh1" "0xh2" "0xh3" "0xh4"
    (by decide) (by decide) (by decide)

/-- C2 counterexample: in the disabled-mode mock snapshot the entry at index 1
has `observedAt = now - 10`, different from the snapshot's `lastUpdate = now`,
so the invariant does not hold for every observable snapshot. -/
theorem mock_snapshot_observedAt_not_lastUpdate :
    ¬ (∀ tx ∈ (mockSnapshot 1000).pendingTxs, tx.timestamp = (mockSnapshot 1000).lastUpdate) := by
  decide

/-- C2 (amended): every snapshot produced by a poll tick stamps each contained
transaction with `observedAt` equal to the snapshot's `lastUpdate`; the
disabled-mode mock snapshot instead staggers its timestamps. -/
theorem poll_snapshot_observedAt_eq_lastUpdate
    (txs : List RawPendingTx) (now : Int) (d : MempoolData)
    (h : mempoolPollStep txs now = some d) :
    ∀ tx ∈ d.pendingTxs, tx.timestamp = d.lastUpdate := by
  unfold mempoolPollStep at h
  split at h
  · exact absurd h (by simp)
  · cases h
    intro tx htx
    simp only [List.mem_map] at htx
    obtain ⟨raw, _, rfl⟩ := htx
    rfl

/-- Witness for C2 (amended) at a concrete one-transaction poll tick. -/
theorem poll_snapshot_observedAt_eq_lastUpdate_witness :
    (projectPending 7 c2raw).timestamp =
      (MempoolData.lastUpdate
        { pendingTxs := [projectPending 7 c2raw], count := 1, lastUpdate := 7
          source := "http-polling"
          metrics := some { totalGasRequested := 0, totalValueWei := "0x0"
                            avgGasPrice := 0, highPriorityCount := 0 } }) :=
  poll_snapshot_observedAt_eq_lastUpdate [c2raw] 7 _ (by decide)
    (projectPending 7 c2raw) (by decide)

/-- C3 counterexample: the disabled-mode snapshot's source string is
`"ws-disabled"`, not `"disabled"`. -/
theorem mock_snapshot_source_not_disabled :
    (mockSnapshot 1000).source ≠ "disabled" := by decide

/-- C3 (amended): when `MEMPOOL_DISABLE` lowercases to one of
`1`/`true`/`yes`/`on`, initialization installs the fixed mock snapshot with
exactly 10 synthetic entries and `source = "ws-disabled"` (the source values
occurring in the code are `"ws"`, `"ws-disabled"` and `"http-polling"`), and
the polling task is not started. -/
theorem mempool_disable_installs_mock
    (s : String) (now : Int)
    (h : strToLower s = "1" ∨ strToLower s = "true" ∨ strToLower s = "yes" ∨ strToLower s = "on") :
    mempoolStart (some s) now = .installMock (mockSnapshot now)
    ∧ (mockSnapshot now).pendingTxs.length = 10
    ∧ (mockSnapshot now).source = "ws-disabled" := by
  have hs : s ≠ "" := by
    rintro rfl
    revert h
    decide
  refine ⟨?_, by simp [mockSnapshot, mempoolInitialData], rfl⟩
  unfold mempoolStart EnvOr
  simp [hs, h]

/-- Witness for C3 (amended) at `MEMPOOL_DISABLE = "TRUE"`. -/
theorem mempool_disable_installs_mock_witness :
    mempoolStart (some "TRUE") 3 = .installMock (mockSnapshot 3)
    ∧ (mockSnapshot 3).pendingTxs.length = 10
    ∧ (mockSnapshot 3).source = "ws-disabled" :=
  mempool_disable_installs_mock "TRUE" 3 (by decide)

/-- C4 counterexample: with `SANDWICH_WORKERS=0` the effective worker count is
10 (the default is kept because `0 ≥ 1` fails), not 1, so the claimed pair of
clamps does not hold. -/
theorem mev_workers_zero_not_one :
    ¬ (mevMaxTxOf (some "0") = 10 ∧ mevWorkersOf (some "0") = 1) := by decide

/-- C4 (amended): `SANDWICH_MAX_TX=0` is clamped to 10 at init, while
`SANDWICH_WORKERS=0` is rejected and the default 10 is kept (values below 1
never reach the `[1,50]` clamp). -/
theorem mev_init_zero_knobs :
    mevMaxTxOf (some "0") = 10 ∧ mevWorkersOf (some "0") = 10 := by decide

/-- C5: after one poll tick whose pending block contains the single
transaction with value `0xde0b6b3a7640000`, gas price `0xba43b7400` and gas
`0x5208`, the stored snapshot has `count = 1`, total gas 21000, total value
`"0xde0b6b3a7640000"`, an average gas price of exactly 50 Gwei and
`highPriorityCount = 0` (50 Gwei is not strictly greater than the
50 Gwei threshold). -/
theorem clean_mempool_snapshot_metrics (now : Int) :
    mempoolPollStep [c5tx] now =
      some
        { pendingTxs := [projectPending now c5tx], count := 1, lastUpdate := now
          source := "http-polling"
          metrics := some { totalGasRequested := 21000, totalValueWei := "0xde0b6b3a7640000"
                            avgGasPrice := 50, highPriorityCount := 0 } } := by
  have h1 : ParseHexUint64 "0x5208" = some 21000 := by decide
  have h2 : ParseHexUint64 "0xba43b7400" = some 50000000000 := by decide
  have h3 : ParseHexBigInt "0xde0b6b3a7640000" = some 1000000000000000000 := by decide
  have h4 : intToHex 1000000000000000000 = "de0b6b3a7640000" := by decide
  simp [mempoolPollStep, calculateMempoolMetrics, metricsStep, projectPending, c5tx,
    h1, h2, h3, h4]
  norm_num

/-- C10: `SetError` with a nil error resets a source to exactly the
`NewBaseDataSource` state (nil error, zero success time), which `IsHealthy`
reports as healthy; consequently the mempool health check reports a healthy
source on every input — also when the snapshot is empty and polling is
enabled. -/
theorem setError_nil_resets_health
    (d : MempoolData) (h : BaseDataSource) (now : Nat) :
    SetError h none = NewBaseDataSource h.name h.cacheKey h.ttl
    ∧ IsHealthy (SetError h none) now = true
    ∧ (mempoolCheckHealth d h now).1.healthy = true := by
  refine ⟨rfl, rfl, ?_⟩
  unfold mempoolCheckHealth StatusFromSource
  dsimp only
  by_cases hc : d.count > 0 ∨ d.source = "ws-disabled"
  · rw [if_pos hc]
    simp [IsHealthy, SetSuccess]
  · rw [if_neg hc]
    rfl

/-- A cache `Get` that hits returns the stored value and leaves the cache
unchanged. -/
theorem cacheGet_hit_eq {V : Type} (c : Cache V) (k : String) (now : Nat) (v : V)
    (h : (cacheGet c k now).1 = some v) : cacheGet c k now = (some v, c) := by
  unfold cacheGet at h ⊢
  cases hf : cacheFind c k with
  | none => rw [hf] at h; simp at h
  | some pair =>
    obtain ⟨w, exp⟩ := pair
    rw [hf] at h
    by_cases ht : now < exp
    · simp only [ht, if_true] at h ⊢
      obtain rfl : w = v := by simpa using h
      rfl
    · simp only [ht, if_false] at h
      simp at h

/-- C8: when the path is present and unexpired in the negative cache, relay
`Get` fails fast with the "recently failed" error: no relay is contacted, the
ok-cache and the negative cache are unchanged, and the only state change is
recording the error on the relay health source. -/
theorem relayGet_negative_cache_fails_fast
    (path : String) (budget now : Nat) (attempts : List RelayAttempt) (st : RelayState)
    (h : (cacheGet st.failCache path now).1.isSome) :
    (relayGet path budget now attempts st).contacted = []
    ∧ (relayGet path budget now attempts st).result =
        .error "relay recently failed; backing off"
    ∧ (relayGet path budget now attempts st).state.failCache = st.failCache
    ∧ (relayGet path budget now attempts st).state.okCache = st.okCache
    ∧ (relayGet path budget now attempts st).state.health =
        SetError st.health (some "relay recently failed; backing off") := by
  obtain ⟨v, hv⟩ := Option.isSome_iff_exists.mp h
  have hit := cacheGet_hit_eq st.failCache path now v hv
  unfold relayGet
  rw [hit]
  exact ⟨rfl, rfl, rfl, rfl, rfl⟩

/-- Witness for C8 at a concrete state whose negative cache holds the path. -/
theorem relayGet_negative_cache_fails_fast_witness :
    (relayGet "p" 2500 50 [] c8state).contacted = []
    ∧ (relayGet "p" 2500 50 [] c8state).result =
        .error "relay recently failed; backing off"
    ∧ (relayGet "p" 2500 50 [] c8state).state.failCache = c8state.failCache
    ∧ (relayGet "p" 2500 50 [] c8state).state.okCache = c8state.okCache
    ∧ (relayGet "p" 2500 50 [] c8state).state.health =
        SetError c8state.health (some "relay recently failed; backing off") :=
  relayGet_negative_cache_fails_fast "p" 2500 50 [] c8state (by decide)

/-- The `latest` selection loop picks the hash of the first transaction that
qualifies either at input-only decode or with its own fetched receipt. -/
theorem selectLoop_eq_find (receiptOf : String → Option DecReceipt) (txs : List BlkTx) :
    selectLoop receiptOf txs =
      (match txs.find? (qualifiesEither receiptOf) with
       | some tx => tx.hash
       | none => "") := by
  induction txs with
  | nil => rfl
  | cons tx rest ih =>
    by_cases h1 : decodeQualifies (decodeActionType tx.input none) = true
    · simp [selectLoop, qualifiesEither, List.find?, h1]
    · rw [Bool.not_eq_true] at h1
      cases hrc : receiptOf tx.hash with
      | none => simp [selectLoop, qualifiesEither, List.find?, h1, hrc, ih]
      | some rc =>
        by_cases h2 : decodeQualifies (decodeActionType tx.input (some rc)) = true
        · simp [selectLoop, qualifiesEither, List.find?, h1, hrc, h2]
        · rw [Bool.not_eq_true] at h2
          simp [selectLoop, qualifiesEither, List.find?, h1, hrc, h2, ih]

/-- C6 counterexample: `c6tx2` qualifies at input-only decode (a known
`transfer` selector) while the earlier `c6tx1` qualifies only with its receipt
(unknown selector upgraded to `swap` by two Transfer logs); the resolver
nevertheless selects `c6tx1`, because the loop fetches each transaction's
receipt before moving to the next transaction — there is no separate
input-only first pass. -/
theorem selectLatest_prefers_earlier_receipt_qualifier :
    decodeQualifies (decodeActionType c6tx2.input none) = true
    ∧ decodeQualifies (decodeActionType c6tx1.input none) = false
    ∧ decodeQualifies (decodeActionType c6tx1.input (some c6receipt)) = true
    ∧ selectLatestTxHash [c6tx1, c6tx2] c6oracle = c6tx1.hash
    ∧ c6tx1.hash ≠ c6tx2.hash := by decide

/-- C6 (amended): the `latest` resolver is a single pass over the block's
transactions: the chosen hash is that of the first transaction qualifying
either at input-only decode or, immediately afterwards, with its fetched
receipt; when none qualifies the first transaction of the block is chosen.
In particular an earlier transaction qualifying only with receipt context is
preferred over a later transaction qualifying at input-only decode. -/
theorem selectLatest_single_pass (txs : List BlkTx) (receiptOf : String → Option DecReceipt) :
    selectLatestTxHash txs receiptOf =
      (let h :=
        match txs.find? (qualifiesEither receiptOf) with
        | some tx => tx.hash
        | none => ""
       if h = "" then
         match txs with
         | [] => ""
         | t :: _ => t.hash
       else h) := by
  unfold selectLatestTxHash
  rw [selectLoop_eq_find]

/-- The overwrite loop of `calculateSwapPrice` over the tail returns the last
transfer when every tail transfer has a parseable amount. -/
theorem swapScanOut_eq_getLast (l : List TransferEv) (acc : Option (TransferEv × ℚ))
    (hne : l ≠ []) (hall : ∀ t ∈ l, (parseAmountDiv t).isSome) :
    ∃ q, parseAmountDiv (l.getLast hne) = some q
      ∧ l.foldl
          (fun acc t =>
            match parseAmountDiv t with
            | some q => some (t, q)
            | none => acc)
          acc = some (l.getLast hne, q) := by
  induction l generalizing acc with
  | nil => exact absurd rfl hne
  | cons t tl ih =>
    cases tl with
    | nil =>
      obtain ⟨q, hq⟩ := Option.isSome_iff_exists.mp (hall t (by simp))
      exact ⟨q, by simpa using hq, by simp [hq]⟩
    | cons t2 tl2 =>
      have hne2 : t2 :: tl2 ≠ [] := by simp
      have hall2 : ∀ u ∈ t2 :: tl2, (parseAmountDiv u).isSome := by
        intro u hu
        exact hall u (List.mem_cons_of_mem _ hu)
      obtain ⟨q, hq, hfold⟩ := ih
        (match parseAmountDiv t with
         | some q => some (t, q)
         | none => acc) hne2 hall2
      refine ⟨q, ?_, ?_⟩
      · rwa [List.getLast_cons hne2]
      · rw [List.foldl_cons, List.getLast_cons hne2]
        exact hfold

/-- C7 counterexample: for a receipt with three transfers the "out" side of the
computed swap pricing is the third (last) transfer, not the second, and the
exchange rate is computed from the first and third amounts. -/
theorem calculateSwapPrice_three_transfers_out_is_third :
    (calculateSwapPrice [c7t1, c7t2, c7t3]).map (fun p => p.toToken) = some c7t3.token
    ∧ c7t3.token ≠ c7t2.token
    ∧ (calculateSwapPrice [c7t1, c7t2, c7t3]).map (fun p => p.fromToken) = some c7t1.token := by
  refine ⟨?_, by decide, ?_⟩ <;>
  · have h1 : ParseHexBigInt c7t1.amount = some 1000000000000000000 := by decide
    have h2 : ParseHexBigInt c7t2.amount = some 2000000000000000000 := by decide
    have h3 : ParseHexBigInt c7t3.amount = some 3000000000000000000 := by decide
    simp [calculateSwapPrice, swapScanOut, parseAmountDiv, h1, h2, h3]

/-- C7 (amended): with at least two transfers and parseable amounts, the first
transfer supplies the "in" side, but the "out" side is the **last** transfer of
the list (each later parseable transfer overwrites it), not the second; both
amounts are divided by 10¹⁸ and the exchange rate is out/in.  For exactly two
transfers this coincides with the claim; for three or more it does not. -/
theorem calculateSwapPrice_in_first_out_last
    (t0 : TransferEv) (rest : List TransferEv) (hne : rest ≠ [])
    (z0 zn : ℤ)
    (h0 : ParseHexBigInt t0.amount = some z0)
    (hn : ParseHexBigInt (rest.getLast hne).amount = some zn)
    (hall : ∀ t ∈ rest, (parseAmountDiv t).isSome) :
    calculateSwapPrice (t0 :: rest) =
      some
        { fromToken := t0.token, fromTokenName := t0.tokenName
          fromAmount := t0.amount, fromAmountDiv := (z0 : ℚ) / 10 ^ 18
          toToken := (rest.getLast hne).token, toTokenName := (rest.getLast hne).tokenName
          toAmount := (rest.getLast hne).amount, toAmountDiv := (zn : ℚ) / 10 ^ 18
          rate := ((zn : ℚ) / 10 ^ 18) / ((z0 : ℚ) / 10 ^ 18) } := by
  obtain ⟨q, hq, hfold⟩ := swapScanOut_eq_getLast rest none hne hall
  have hq2 : q = (zn : ℚ) / 10 ^ 18 := by
    rw [parseAmountDiv, hn] at hq
    simpa using hq.symm
  have hlen : ¬ (t0 :: rest).length < 2 := by
    cases rest with
    | nil => exact absurd rfl hne
    | cons a l => simp
  have h0q : parseAmountDiv t0 = some ((z0 : ℚ) / 10 ^ 18) := by
    rw [parseAmountDiv, h0]
    rfl
  have hout : swapScanOut rest = some (rest.getLast hne, q) := hfold
  unfold calculateSwapPrice
  rw [if_neg hlen]
  dsimp only
  rw [h0q, hout, hq2]

/-- Witness for C7 (amended) at the three concrete transfers. -/
theorem calculateSwapPrice_in_first_out_last_witness :
    calculateSwapPrice [c7t1, c7t2, c7t3] =
      some
        { fromToken := c7t1.token, fromTokenName := c7t1.tokenName
          fromAmount := c7t1.amount
          fromAmountDiv := ((1000000000000000000 : ℤ) : ℚ) / 10 ^ 18
          toToken := c7t3.token, toTokenName := c7t3.tokenName
          toAmount := c7t3.amount
          toAmountDiv := ((3000000000000000000 : ℤ) : ℚ) / 10 ^ 18
          rate := (((3000000000000000000 : ℤ) : ℚ) / 10 ^ 18)
                    / (((1000000000000000000 : ℤ) : ℚ) / 10 ^ 18) } :=
  calculateSwapPrice_in_first_out_last c7t1 [c7t2, c7t3] (by decide)
    1000000000000000000 3000000000000000000 (by decide) (by decide) (by decide)

/-- One dedupe step preserves the merge invariants: output keys stay pairwise
distinct (among non-empty ones) and covered by the seen-set. -/
theorem dedupeStep_invariant (key : BidEntry → String) (acc : List String × List BidEntry)
    (b : BidEntry) (hg : goodKeys key acc.2) (hs : seenCovers key acc.1 acc.2) :
    goodKeys key (dedupeStep key acc b).2
    ∧ seenCovers key (dedupeStep key acc b).1 (dedupeStep key acc b).2 := by
  unfold dedupeStep
  by_cases h1 : key b ≠ "" ∧ key b ∉ acc.1
  · rw [if_pos h1]
    constructor
    · refine List.pairwise_append.mpr ⟨hg, List.pairwise_singleton _ _, ?_⟩
      intro a ha c hc hka hkc
      obtain rfl : c = b := by simpa using hc
      intro heq
      exact h1.2 (heq ▸ hs a ha hka)
    · intro c hc hkc
      rcases List.mem_append.mp hc with hmem | hmem
      · exact List.mem_cons_of_mem _ (hs c hmem hkc)
      · obtain rfl : c = b := by simpa using hmem
        exact List.mem_cons_self _ _
  · rw [if_neg h1]
    by_cases h2 : key b = ""
    · rw [if_pos h2]
      constructor
      · refine List.pairwise_append.mpr ⟨hg, List.pairwise_singleton _ _, ?_⟩
        intro a ha c hc hka hkc
        obtain rfl : c = b := by simpa using hc
        exact absurd h2 hkc
      · intro c hc hkc
        rcases List.mem_append.mp hc with hmem | hmem
        · exact hs c hmem hkc
        · obtain rfl : c = b := by simpa using hmem
          exact absurd h2 hkc
    · rw [if_neg h2]
      exact ⟨hg, hs⟩

/-- Folding the dedupe step over one body's entry list preserves the merge
invariants. -/
theorem dedupeFold_invariant (key : BidEntry → String) (l : List BidEntry) :
    ∀ acc : List String × List BidEntry,
      goodKeys key acc.2 → seenCovers key acc.1 acc.2 →
      goodKeys key (l.foldl (dedupeStep key) acc).2
      ∧ seenCovers key (l.foldl (dedupeStep key) acc).1 (l.foldl (dedupeStep key) acc).2 := by
  induction l with
  | nil => intro acc hg hs; exact ⟨hg, hs⟩
  | cons b tl ih =>
    intro acc hg hs
    rw [List.foldl_cons]
    obtain ⟨hg2, hs2⟩ := dedupeStep_invariant key acc b hg hs
    exact ih _ hg2 hs2

/-- The whole merge fold preserves the merge invariants across bodies. -/
theorem mergeFold_invariant (key : BidEntry → String) (bodies : List (Option (List BidEntry))) :
    ∀ acc : List String × List BidEntry,
      goodKeys key acc.2 → seenCovers key acc.1 acc.2 →
      goodKeys key
        ((bodies.foldl
          (fun acc body =>
            match body with
            | none => acc
            | some list => list.foldl (dedupeStep key) acc) acc).2)
      ∧ seenCovers key
          ((bodies.foldl
            (fun acc body =>
              match body with
              | none => acc
              | some list => list.foldl (dedupeStep key) acc) acc).1)
          ((bodies.foldl
            (fun acc body =>
              match body with
              | none => acc
              | some list => list.foldl (dedupeStep key) acc) acc).2) := by
  induction bodies with
  | nil => intro acc hg hs; exact ⟨hg, hs⟩
  | cons body rest ih =>
    intro acc hg hs
    rw [List.foldl_cons]
    cases body with
    | none => exact ih acc hg hs
    | some list =>
      obtain ⟨hg2, hs2⟩ := dedupeFold_invariant key list acc hg hs
      exact ih _ hg2 hs2

/-- Replaying the dedupe fold over a list whose non-empty keys are pairwise
distinct and disjoint from the seen-set appends the list verbatim. -/
theorem dedupeFold_replay (key : BidEntry → String) (l : List BidEntry) :
    ∀ (seen : List String) (res : List BidEntry),
      (∀ b ∈ l, key b ≠ "" → key b ∉ seen) → goodKeys key l →
      (l.foldl (dedupeStep key) (seen, res)).2 = res ++ l := by
  induction l with
  | nil => intro seen res _ _; simp
  | cons b tl ih =>
    intro seen res hdisj hgood
    rw [List.foldl_cons]
    rw [goodKeys, List.pairwise_cons] at hgood
    obtain ⟨hhead, htail⟩ := hgood
    by_cases h2 : key b = ""
    · have hstep : dedupeStep key (seen, res) b = (seen, res ++ [b]) := by
        unfold dedupeStep
        rw [if_neg (by simp [h2]), if_pos h2]
      rw [hstep, ih seen (res ++ [b])
        (fun c hc hkc => hdisj c (List.mem_cons_of_mem _ hc) hkc) htail]
      simp
    · have hnot : key b ∉ seen := hdisj b (List.mem_cons_self _ _) h2
      have hstep : dedupeStep key (seen, res) b = (key b :: seen, res ++ [b]) := by
        unfold dedupeStep
        rw [if_pos ⟨h2, hnot⟩]
      rw [hstep]
      have hdisj2 : ∀ c ∈ tl, key c ≠ "" → key c ∉ key b :: seen := by
        intro c hc hkc hmem
        rcases List.mem_cons.mp hmem with heq | hmem2
        · exact hhead c hc h2 hkc heq.symm
        · exact hdisj c (List.mem_cons_of_mem _ hc) hkc hmem2
      rw [ih (key b :: seen) (res ++ [b]) hdisj2 htail]
      simp

/-- The generic merge is idempotent: feeding its output back as a single
parsed body reproduces it. -/
theorem mergeWithKey_idem (key : BidEntry → String) (bodies : List (Option (List BidEntry))) :
    mergeWithKey key [some (mergeWithKey key bodies)] = mergeWithKey key bodies := by
  obtain ⟨hg, _⟩ := mergeFold_invariant key bodies ([], [])
    (List.Pairwise.nil) (by intro b hb; simp at hb)
  have hL : mergeWithKey key [some (mergeWithKey key bodies)]
      = ((mergeWithKey key bodies).foldl (dedupeStep key) ([], [])).2 := by
    rfl
  rw [hL, dedupeFold_replay key (mergeWithKey key bodies) [] []
    (by intro b _ _ hmem; simp at hmem) hg]
  simp

/-- C9: both snapshot merge-dedupe functions are idempotent —
`merge [merge Xs] = merge Xs`; non-empty keys (block hash, else the slot-based
secondary key) are deduplicated, while entries with an empty key pass through
verbatim and are never treated as duplicates. -/
theorem merge_dedupe_idempotent (bodies : List (Option (List BidEntry))) :
    mergeReceivedBlocks [some (mergeReceivedBlocks bodies)] = mergeReceivedBlocks bodies
    ∧ mergeDeliveredPayloads [some (mergeDeliveredPayloads bodies)]
        = mergeDeliveredPayloads bodies :=
  ⟨mergeWithKey_idem receivedKey bodies, mergeWithKey_idem deliveredKey bodies⟩

end EthTxLifecycle
